import Mathlib

/-!
# Verification of the sister_site Telegram admin bot

Shallow embedding of `src/telegram_bot/bot.py` (the single source file of the
repository) and proofs about it.  Python strings are Lean `String`s; Python's
`dict` for the slots collection is an insertion-ordered association list;
the JSON files behind `read_slots` / `write_slots` / `read_bookings` /
`write_packages` are passed in and out explicitly as values, so each handler
becomes a pure function from the pre-state to the post-state plus the
operator-visible outcome.
-/

namespace SisterSite

/-- Python `\s` (ASCII range, the only characters the bot's inputs use):
space, tab, newline, carriage return, vertical tab, form feed. -/
def isWs (c : Char) : Bool :=
  c.toNat = 32 || c.toNat = 9 || c.toNat = 10 || c.toNat = 13 ||
  c.toNat = 11 || c.toNat = 12

/-- Python `\d` (ASCII): code points 48-57. -/
def isDig (c : Char) : Bool :=
  48 ≤ c.toNat && c.toNat ≤ 57

/-- Drop leading whitespace characters. -/
def dropWs : List Char → List Char
  | [] => []
  | c :: cs => if isWs c then dropWs cs else c :: cs

/-- Python `str.strip()`: remove leading and trailing whitespace. -/
def pyStrip (cs : List Char) : List Char :=
  (dropWs (dropWs cs).reverse).reverse

/-- Match exactly `n` digit characters (regex `\d{n}`), returning them and the
rest of the input. -/
def takeDigs : Nat → List Char → Option (List Char × List Char)
  | 0, cs => some ([], cs)
  | _ + 1, [] => none
  | n + 1, c :: cs =>
    if isDig c then
      match takeDigs n cs with
      | none => none
      | some (ds, rest) => some (c :: ds, rest)
    else none

/-- Match one literal character. -/
def expect (a : Char) : List Char → Option (List Char)
  | [] => none
  | c :: cs => if c = a then some cs else none

/-- Match the character class `[.\-]` of the bot's date regexes. -/
def dotDash : List Char → Option (List Char)
  | [] => none
  | c :: cs => if c = '.' || c = '-' then some cs else none

/-- Match regex `\s+` (greedy: the following token of every pattern that uses
it is a digit, never whitespace, so greedy matching coincides with the
regex). -/
def ws1 : List Char → Option (List Char)
  | [] => none
  | c :: cs => if isWs c then some (dropWs cs) else none

/-- Match regex `\d{2}:\d{2}`, returning the matched characters. -/
def matchTime (cs : List Char) : Option (List Char × List Char) :=
  match takeDigs 2 cs with
  | none => none
  | some (h, cs1) =>
    match expect ':' cs1 with
    | none => none
    | some cs2 =>
      match takeDigs 2 cs2 with
      | none => none
      | some (m, cs3) => some (h ++ ':' :: m, cs3)

/-- Python `f"{y:04d}"` for a natural number: decimal digits, left-padded
with zeros to width 4. -/
def pad4 (n : Nat) : String :=
  let s := toString n
  String.mk (List.replicate (4 - s.length) '0' ++ s.data)

/-- Python `f"{n:02d}"` for a natural number: decimal digits, left-padded
with zeros to width 2. -/
def pad2 (n : Nat) : String :=
  let s := toString n
  String.mk (List.replicate (2 - s.length) '0' ++ s.data)

/-- Source `bot.py` lines 906-909: regex `^(\d{4}-\d{2}-\d{2})\s+(\d{2}:\d{2})$` —
the ISO grammar.  Group 1 is the matched date text itself. -/
def matchISO (cs : List Char) : Option (String × String) :=
  match takeDigs 4 cs with
  | none => none
  | some (y, cs1) =>
    match expect '-' cs1 with
    | none => none
    | some cs2 =>
      match takeDigs 2 cs2 with
      | none => none
      | some (mo, cs3) =>
        match expect '-' cs3 with
        | none => none
        | some cs4 =>
          match takeDigs 2 cs4 with
          | none => none
          | some (da, cs5) =>
            match ws1 cs5 with
            | none => none
            | some cs6 =>
              match matchTime cs6 with
              | none => none
              | some (t, cs7) =>
                if cs7 = [] then
                  some (String.mk (y ++ '-' :: mo ++ '-' :: da), String.mk t)
                else none

/-- Source `bot.py` lines 911-916: regex
`^(\d{2})[.\-](\d{2})[.\-](\d{4})\s+(\d{2}:\d{2})$` — the DD.MM.YYYY grammar.
Returns `f"{y}-{mth}-{d}"` and the time. -/
def matchG2 (cs : List Char) : Option (String × String) :=
  match takeDigs 2 cs with
  | none => none
  | some (da, cs1) =>
    match dotDash cs1 with
    | none => none
    | some cs2 =>
      match takeDigs 2 cs2 with
      | none => none
      | some (mo, cs3) =>
        match dotDash cs3 with
        | none => none
        | some cs4 =>
          match takeDigs 4 cs4 with
          | none => none
          | some (y, cs5) =>
            match ws1 cs5 with
            | none => none
            | some cs6 =>
              match matchTime cs6 with
              | none => none
              | some (t, cs7) =>
                if cs7 = [] then
                  some (String.mk (y ++ '-' :: mo ++ '-' :: da), String.mk t)
                else none

/-- Source `bot.py` lines 918-924: regex `^(\d{2})[.\-](\d{2})\s+(\d{2}:\d{2})$` —
the DD.MM grammar, completed with `date.today().year` formatted `04d`. -/
def matchG1 (todayYear : Nat) (cs : List Char) : Option (String × String) :=
  match takeDigs 2 cs with
  | none => none
  | some (da, cs1) =>
    match dotDash cs1 with
    | none => none
    | some cs2 =>
      match takeDigs 2 cs2 with
      | none => none
      | some (mo, cs3) =>
        match ws1 cs3 with
        | none => none
        | some cs4 =>
          match matchTime cs4 with
          | none => none
          | some (t, cs5) =>
            if cs5 = [] then
              some (String.mk ((pad4 todayYear).data ++ '-' :: mo ++ '-' :: da),
                    String.mk t)
            else none

/-- Source `bot.py` lines 896-926, `parse_date_time`: strip the input, then try the
three grammars in the order of the source (ISO, DD.MM.YYYY, DD.MM).  The
Python `(None, None)` failure result is `none`.  `todayYear` stands for
`date.today().year`. -/
def parse_date_time (todayYear : Nat) (text : String) : Option (String × String) :=
  let cs := pyStrip text.data
  match matchISO cs with
  | some r => some r
  | none =>
    match matchG2 cs with
    | some r => some r
    | none => matchG1 todayYear cs

/-- Helper for Python's no-argument `str.split()`: accumulate the current word
(in reverse) and emit it at each whitespace run or at the end. -/
def splitAux : List Char → List Char → List (List Char)
  | [], acc => if acc.isEmpty then [] else [acc.reverse]
  | c :: cs, acc =>
    if isWs c then
      if acc.isEmpty then splitAux cs [] else acc.reverse :: splitAux cs []
    else splitAux cs (c :: acc)

/-- Python `str.split()` with no argument: split on runs of whitespace,
discarding empty words. -/
def pySplit (cs : List Char) : List (List Char) :=
  splitAux cs []

/-- Source `bot.py` lines 929-950, `parse_date_range`: split the stripped text into
words; fewer than three words fails; otherwise parse `"{date} {start}"` and
`"{date} {end}"` with `parse_date_time` and return
`(start_date, start_time, end_time)` (the end date is parsed but only used
for the validity check, words beyond the third are ignored). -/
def parse_date_range (todayYear : Nat) (text : String) :
    Option (String × String × String) :=
  match pySplit (pyStrip text.data) with
  | dp :: sp :: ep :: _ =>
    match parse_date_time todayYear (String.mk (dp ++ ' ' :: sp)) with
    | none => none
    | some (sd, st) =>
      match parse_date_time todayYear (String.mk (dp ++ ' ' :: ep)) with
      | none => none
      | some (_, et) => some (sd, st, et)
  | _ => none

example : parse_date_time 2026 "10.02 10:00" = some ("2026-02-10", "10:00") := by
  decide

example : parse_date_time 2026 "2026-02-10 10:00" = some ("2026-02-10", "10:00") := by
  decide

example : parse_date_time 2026 "10.02.2027 10:00" = some ("2027-02-10", "10:00") := by
  decide

example : parse_date_range 2026 "10.02 10:00 11:00" =
    some ("2026-02-10", "10:00", "11:00") := by decide

/-! ## The slots collection and the bookings collection

The slots file is a JSON object (Python `dict`, insertion ordered) mapping an
ISO date string to a list of `"HH:MM"` strings; we embed it as an association
list.  The bookings file is a JSON array of objects; a booking's fields may be
absent (`b.get("date")` is `None` then), hence the `Option` fields. -/

/-- The slots collection: insertion-ordered association list standing for the
JSON object read by `read_slots` (bot.py lines 297-301). -/
abbrev Slots := List (String × List String)

/-- Python `dict` lookup (`d in dict` / `dict[d]`): first binding of the key
(keys are unique in a JSON object). -/
def alistGet {α : Type} (k : String) : List (String × α) → Option α
  | [] => none
  | (k', v) :: rest => if k' = k then some v else alistGet k rest

/-- Python `dict[k] = v`: replace the key's binding in place, or append a new
binding (insertion order). -/
def alistSet {α : Type} (k : String) (v : α) : List (String × α) → List (String × α)
  | [] => [(k, v)]
  | (k', v') :: rest =>
    if k' = k then (k, v) :: rest else (k', v') :: alistSet k v rest

/-- Python `del dict[k]`: remove the key's binding. -/
def alistDel {α : Type} (k : String) : List (String × α) → List (String × α)
  | [] => []
  | (k', v') :: rest => if k' = k then rest else (k', v') :: alistDel k rest

/-- Insert a string into a strictly-sorted duplicate-free list, keeping it so. -/
def insSorted (a : String) : List String → List String
  | [] => [a]
  | b :: bs =>
    if a < b then a :: b :: bs
    else if a = b then b :: bs
    else b :: insSorted a bs

/-- Python `sorted(set(l))` (bot.py line 974): the strictly ascending list of
the distinct elements of `l`, under Python's code-point string order. -/
def sortedSet (l : List String) : List String :=
  l.foldr insSorted []

/-- One entry of the bookings JSON array (bot.py `read_bookings`).  Fields are
`Option` because the handlers access them with `dict.get`. -/
structure Booking where
  date : Option String
  time : Option String
  name : Option String
  phone : Option String
deriving DecidableEq, Repr

/-- The comprehension filter `b.get("date") == date_str and b.get("time") == time`
(bot.py lines 1010 and 3272). -/
def bookingMatches (d t : String) (b : Booking) : Bool :=
  b.date = some d && b.time = some t

/-- Python `int(...)` on a character list: optional surrounding whitespace and
sign, then at least one digit; raises (here: `none`) otherwise. -/
def pyIntChars (cs : List Char) : Option Int :=
  let cs := pyStrip cs
  let core : List Char → Option Nat := fun ds =>
    if ds.isEmpty then none
    else if ds.all isDig then
      some (ds.foldl (fun acc c => acc * 10 + (c.toNat - '0'.toNat)) 0)
    else none
  match cs with
  | '-' :: rest => (core rest).map (fun n => -(n : Int))
  | '+' :: rest => (core rest).map (fun n => (n : Int))
  | _ => (core cs).map (fun n => (n : Int))

/-- The month-name table of `format_date_ru` (bot.py lines 318-322), with the
dictionary's `.get(m, m)` default. -/
def monthsRu (m : String) : String :=
  if m = "01" then "января" else if m = "02" then "февраля"
  else if m = "03" then "марта" else if m = "04" then "апреля"
  else if m = "05" then "мая" else if m = "06" then "июня"
  else if m = "07" then "июля" else if m = "08" then "августа"
  else if m = "09" then "сентября" else if m = "10" then "октября"
  else if m = "11" then "ноября" else if m = "12" then "декабря"
  else m

/-- Source `bot.py` lines 317-327, `format_date_ru`: split on `"-"`; with exactly
three parts and an integral day, render `f"{int(d)} {months.get(m, m)} {y}"`;
any failure returns the input unchanged. -/
def format_date_ru (s : String) : String :=
  match s.data.splitOn '-' with
  | [y, m, d] =>
    match pyIntChars d with
    | some v => toString v ++ " " ++ monthsRu (String.mk m) ++ " " ++ String.mk y
    | none => s
  | _ => s

/-- What `handle_add_slot` tells the operator; `added` and `alreadyPresent`
carry the formatted date used in the message. -/
inductive AddSlotOutcome
  | parseError
  | alreadyPresent (reportedDate t : String)
  | added (dateKey reportedDate tStart tEnd : String)
deriving DecidableEq, Repr

/-- Source `bot.py` lines 953-984, `handle_add_slot`: parse the range; on failure
send the format help and leave the collection alone; if the start time is
already in the date's list, report it and leave the collection alone;
otherwise append the start time (only!), deduplicate-sort, store, and report
`format_date_ru(date_str)` with both times. -/
def handle_add_slot (todayYear : Nat) (slots : Slots) (text : String) :
    Slots × AddSlotOutcome :=
  match parse_date_range todayYear text with
  | none => (slots, .parseError)
  | some (d, t1, t2) =>
    let day := (alistGet d slots).getD []
    if t1 ∈ day then
      (slots, .alreadyPresent (format_date_ru d) t1)
    else
      (alistSet d (sortedSet (day ++ [t1])) slots,
       .added d (format_date_ru d) t1 t2)

/-- The slot-removal block shared verbatim by `delete_slot_and_notify`
(bot.py lines 1044-1048) and `handle_confirm_delete_callback` (lines
3277-3281): keep the date's other times, or drop the date key when none
remain.  Callers only reach it with the key present. -/
def removeSlotTime (slots : Slots) (d t : String) : Slots :=
  match alistGet d slots with
  | none => slots
  | some ts =>
    match ts.filter (fun x => x ≠ t) with
    | [] => alistDel d slots
    | newTimes => alistSet d newTimes slots

/-- What `delete_slot_and_notify` does from the operator's point of view. -/
inductive DeleteOutcome
  | notFound (d t : String)
  | needsConfirm (affected : List Booking)
  | deleted (d t : String)
deriving DecidableEq, Repr

/-- Source `bot.py` lines 1002-1069, `delete_slot_and_notify`: unknown (date, time)
reports not-found; with matching bookings it only sends the confirmation
keyboard (`confirm_del:{date}|{time}` / `cancel_del`) and mutates nothing;
with none it removes the time (dropping an emptied date key) and writes the
slots file.  The bookings file is never written here. -/
def delete_slot_and_notify (slots : Slots) (bookings : List Booking)
    (d t : String) : Slots × List Booking × DeleteOutcome :=
  match alistGet d slots with
  | none => (slots, bookings, .notFound d t)
  | some ts =>
    if t ∈ ts then
      match bookings.filter (bookingMatches d t) with
      | [] => (removeSlotTime slots d t, bookings, .deleted d t)
      | affected => (slots, bookings, .needsConfirm affected)
    else (slots, bookings, .notFound d t)

/-- Source `bot.py` lines 3257-3307, `handle_confirm_delete_callback`, after the
`confirm_del:{date}|{time}` payload has been decoded (a malformed payload is
answered with an error and mutates nothing): split the bookings into the
cancelled ones (matching the slot) and the remaining ones; remove the slot
time when still present; rewrite the bookings file with only the remaining
entries.  Returns (new slots, new bookings, cancelled bookings). -/
def handle_confirm_delete_callback (slots : Slots) (bookings : List Booking)
    (d t : String) : Slots × List Booking × List Booking :=
  let cancelled := bookings.filter (bookingMatches d t)
  let remaining := bookings.filter (fun b => !bookingMatches d t b)
  let slots' :=
    match alistGet d slots with
    | some ts => if t ∈ ts then removeSlotTime slots d t else slots
    | none => slots
  (slots', remaining, cancelled)

/-- Source `bot.py` lines 3310-3312, `handle_cancel_delete_callback`: only answers
the callback query; neither the slots file nor the bookings file is touched. -/
def handle_cancel_delete_callback (slots : Slots) (bookings : List Booking) :
    Slots × List Booking :=
  (slots, bookings)

example : handle_add_slot 2026 [] "10.02 10:00 11:00" =
    ([("2026-02-10", ["10:00"])],
     .added "2026-02-10" "10 февраля 2026" "10:00" "11:00") := by decide

example :
    delete_slot_and_notify [("2026-02-10", ["10:00", "11:00"])] [] "2026-02-10" "10:00" =
      ([("2026-02-10", ["11:00"])], [], .deleted "2026-02-10" "10:00") := by decide

/-! ## HMAC-SHA256 and admin-token issuance

`_hash_admin_token` (bot.py lines 152-157) calls the standard library's
`hmac.new(secret, token, hashlib.sha256).hexdigest()`; we embed SHA-256 and
HMAC themselves (FIPS 180-4 / RFC 2104), bytes as `Nat` below 256 and 32-bit
words as `Nat` reduced mod `2 ^ 32`. -/

/-- Addition of 32-bit words. -/
def add32 (a b : Nat) : Nat := (a + b) % 4294967296

/-- Right rotation of a 32-bit word. -/
def rotr32 (n x : Nat) : Nat := ((x >>> n) ||| (x <<< (32 - n))) % 4294967296

/-- Bitwise complement of a 32-bit word. -/
def not32 (x : Nat) : Nat := x ^^^ 4294967295

/-- SHA-256 `Ch`. -/
def shaCh (x y z : Nat) : Nat := (x &&& y) ^^^ (not32 x &&& z)

/-- SHA-256 `Maj`. -/
def shaMaj (x y z : Nat) : Nat := (x &&& y) ^^^ (x &&& z) ^^^ (y &&& z)

/-- SHA-256 `Σ0`. -/
def bigSigma0 (x : Nat) : Nat := rotr32 2 x ^^^ rotr32 13 x ^^^ rotr32 22 x

/-- SHA-256 `Σ1`. -/
def bigSigma1 (x : Nat) : Nat := rotr32 6 x ^^^ rotr32 11 x ^^^ rotr32 25 x

/-- SHA-256 `σ0`. -/
def smallSigma0 (x : Nat) : Nat := rotr32 7 x ^^^ rotr32 18 x ^^^ (x >>> 3)

/-- SHA-256 `σ1`. -/
def smallSigma1 (x : Nat) : Nat := rotr32 17 x ^^^ rotr32 19 x ^^^ (x >>> 10)

/-- The 64 SHA-256 round constants (FIPS 180-4 §4.2.2, in decimal). -/
def K256 : List Nat :=
  [1116352408, 1899447441, 3049323471, 3921009573, 961987163,
   1508970993, 2453635748, 2870763221, 3624381080, 310598401,
   607225278, 1426881987, 1925078388, 2162078206, 2614888103,
   3248222580, 3835390401, 4022224774, 264347078, 604807628,
   770255983, 1249150122, 1555081692, 1996064986, 2554220882,
   2821834349, 2952996808, 3210313671, 3336571891, 3584528711,
   113926993, 338241895, 666307205, 773529912, 1294757372,
   1396182291, 1695183700, 1986661051, 2177026350, 2456956037,
   2730485921, 2820302411, 3259730800, 3345764771, 3516065817,
   3600352804, 4094571909, 275423344, 430227734, 506948616,
   659060556, 883997877, 958139571, 1322822218, 1537002063,
   1747873779, 1955562222, 2024104815, 2227730452, 2361852424,
   2428436474, 2756734187, 3204031479, 3329325298]

/-- The SHA-256 initial hash value (FIPS 180-4 §5.3.3, in decimal). -/
def sha256H0 : List Nat :=
  [1779033703, 3144134277, 1013904242, 2773480762,
   1359893119, 2600822924, 528734635, 1541459225]

/-- Big-endian 8-byte encoding of the message bit length. -/
def be64 (n : Nat) : List Nat :=
  [(n >>> 56) &&& 255, (n >>> 48) &&& 255, (n >>> 40) &&& 255,
   (n >>> 32) &&& 255, (n >>> 24) &&& 255, (n >>> 16) &&& 255,
   (n >>> 8) &&& 255, n &&& 255]

/-- Big-endian 4-byte encoding of a 32-bit word. -/
def be32 (n : Nat) : List Nat :=
  [(n >>> 24) &&& 255, (n >>> 16) &&& 255, (n >>> 8) &&& 255, n &&& 255]

/-- SHA-256 padding: `0x80`, zeros to 56 mod 64, then the 64-bit bit length. -/
def sha256Pad (msg : List Nat) : List Nat :=
  let z := (119 - msg.length % 64) % 64
  msg ++ 0x80 :: List.replicate z 0 ++ be64 (msg.length * 8)

/-- Split a byte list into 64-byte blocks. -/
def toBlocks : List Nat → List (List Nat)
  | [] => []
  | c :: cs => (c :: cs).take 64 :: toBlocks ((c :: cs).drop 64)
termination_by l => l.length
decreasing_by
  simp only [List.length_drop, List.length_cons]
  omega

/-- Big-endian 32-bit words of a 64-byte block. -/
def toWords : List Nat → List Nat
  | b0 :: b1 :: b2 :: b3 :: rest =>
    ((((b0 <<< 8) ||| b1) <<< 8 ||| b2) <<< 8 ||| b3) :: toWords rest
  | _ => []

/-- Extend the reversed word list by `n` schedule words
(`w[i] = σ1 w[i-2] + w[i-7] + σ0 w[i-15] + w[i-16]`). -/
def scheduleAux : Nat → List Nat → List Nat
  | 0, revW => revW
  | n + 1, revW =>
    let nw := add32 (add32 (smallSigma1 (revW.getD 1 0)) (revW.getD 6 0))
                    (add32 (smallSigma0 (revW.getD 14 0)) (revW.getD 15 0))
    scheduleAux n (nw :: revW)

/-- The 64-word SHA-256 message schedule of a block's 16 words. -/
def schedule (ws : List Nat) : List Nat :=
  (scheduleAux 48 ws.reverse).reverse

/-- One SHA-256 compression round on the 8-word state, fed `(Kᵢ, Wᵢ)`. -/
def roundStep (st : List Nat) (kw : Nat × Nat) : List Nat :=
  match st with
  | [a, b, c, d, e, f, g, hh] =>
    let t1 := add32 hh (add32 (bigSigma1 e) (add32 (shaCh e f g) (add32 kw.1 kw.2)))
    let t2 := add32 (bigSigma0 a) (shaMaj a b c)
    [add32 t1 t2, a, b, c, add32 d t1, e, f, g]
  | st => st

/-- SHA-256 compression of one 64-byte block into the running hash. -/
def compressBlock (hs : List Nat) (block : List Nat) : List Nat :=
  let final := ((K256.zip (schedule (toWords block))).foldl roundStep hs)
  (hs.zip final).map (fun p => add32 p.1 p.2)

/-- SHA-256 of a byte list, as its 32 digest bytes. -/
def sha256 (msg : List Nat) : List Nat :=
  ((toBlocks (sha256Pad msg)).foldl compressBlock sha256H0).foldr
    (fun w acc => be32 w ++ acc) []

/-- Lower-case hex digit. -/
def hexDig (n : Nat) : Char :=
  if n < 10 then Char.ofNat ('0'.toNat + n) else Char.ofNat ('a'.toNat + n - 10)

/-- Python `.hexdigest()`: lower-case hex of the digest bytes. -/
def toHex (bytes : List Nat) : String :=
  String.mk (bytes.foldr (fun b acc => hexDig (b >>> 4) :: hexDig (b &&& 15) :: acc) [])

/-- UTF-8 bytes of one character (Python `str.encode("utf-8")`). -/
def utf8Char (c : Char) : List Nat :=
  let n := c.toNat
  if n < 0x80 then [n]
  else if n < 0x800 then
    [0xC0 ||| (n >>> 6), 0x80 ||| (n &&& 0x3F)]
  else if n < 0x10000 then
    [0xE0 ||| (n >>> 12), 0x80 ||| ((n >>> 6) &&& 0x3F), 0x80 ||| (n &&& 0x3F)]
  else
    [0xF0 ||| (n >>> 18), 0x80 ||| ((n >>> 12) &&& 0x3F),
     0x80 ||| ((n >>> 6) &&& 0x3F), 0x80 ||| (n &&& 0x3F)]

/-- UTF-8 bytes of a string. -/
def utf8 (s : String) : List Nat :=
  s.data.foldr (fun c acc => utf8Char c ++ acc) []

/-- RFC 2104 HMAC-SHA256 over byte lists (block size 64). -/
def hmacSha256 (key msg : List Nat) : List Nat :=
  let k0 := if key.length > 64 then sha256 key else key
  let k := k0 ++ List.replicate (64 - k0.length) 0
  sha256 ((k.map (fun b => b ^^^ 0x5c)) ++
          sha256 ((k.map (fun b => b ^^^ 0x36)) ++ msg))

/-- Source `bot.py` lines 152-157, `_hash_admin_token`:
`hmac.new(secret.encode(), token.encode(), hashlib.sha256).hexdigest()`. -/
def _hash_admin_token (secret rawToken : String) : String :=
  toHex (hmacSha256 (utf8 secret) (utf8 rawToken))

/-- Source `bot.py` line 67: `ADMIN_TOKEN_TTL_SECONDS = 4 * 60 * 60`. -/
def ADMIN_TOKEN_TTL_SECONDS : Int := 4 * 60 * 60

/-- The single row of the `admin_auth_token` table (bot.py lines 138-147).
Its schema carries `id INTEGER PRIMARY KEY CHECK (id = 1)`, so the table
holds at most one row; we embed the table as `Option CredRow`. -/
structure CredRow where
  token_hash : String
  issued_at : Int
  expires_at : Int
  created_by : String
deriving DecidableEq, Repr

/-- Source `bot.py` lines 160-187, `issue_admin_token`: with the (stripped) secret
empty, raise `RuntimeError` before touching the database; otherwise hash the
fresh random token (`rawToken` stands for `secrets.token_urlsafe(32)`,
`issuedAt` for `int(datetime.now().timestamp())`), upsert the fixed-id row
with the digest — never the raw token — and return the raw token with the
expiry `issued_at + ADMIN_TOKEN_TTL_SECONDS`.  Returns the table state
alongside the Python result (`Except` for the raise). -/
def issue_admin_token (secret : String) (chat_id : Int) (rawToken : String)
    (issuedAt : Int) (store : Option CredRow) :
    Option CredRow × Except String (String × Int) :=
  if secret = "" then
    (store, .error "Не задан ADMIN_TOKEN_HASH_SECRET в .env")
  else
    let expires_at := issuedAt + ADMIN_TOKEN_TTL_SECONDS
    (some ⟨_hash_admin_token secret rawToken, issuedAt, expires_at, toString chat_id⟩,
     .ok (rawToken, expires_at))

/-! ## Videos in a package -/

/-- One entry of a package's ordered `videos` JSON array; `videoUrl` is only
present when the draft supplied one (bot.py lines 2884-2889). -/
structure Video where
  title : String
  duration : String
  videoUrl : Option String
deriving DecidableEq, Repr

/-- Python `list.insert(i, x)` at an in-range index `0 ≤ i ≤ len` (the only
way it is called below). -/
def pyInsert {α : Type} (l : List α) (i : Nat) (x : α) : List α :=
  l.take i ++ x :: l.drop i

/-- Source `bot.py` lines 2891-2899, the list mutation of `_save_video_to_package`:
`position` is the draft's 1-based position (`None` when never asked);
`if position and 1 <= position <= len(videos) + 1` inserts at `position - 1`,
every other case — `None`, `0`, negative, or past `len + 1` — appends. -/
def saveVideoInsert (videos : List Video) (position : Option Int) (v : Video) :
    List Video :=
  match position with
  | none => videos ++ [v]
  | some p =>
    if p = 0 then videos ++ [v]
    else if 1 ≤ p ∧ p ≤ (videos.length : Int) + 1 then
      pyInsert videos (p - 1).toNat v
    else videos ++ [v]

/-! ## Blog post listing

`list_blog_posts` (bot.py lines 472-521) walks `POSTS_DIR.glob("*.md")`; we
embed the directory as a list of `(slug, file lines)` pairs (the slug is the
filename stem, hence distinct per file; `splitlines` of the file text is the
line list).  Dates go through `datetime.fromisoformat` and `.timestamp()`:
we model the ISO core those posts use — `YYYY-MM-DD`, optionally one
separator character and `HH:MM[:SS]`, calendar-validated — and the timestamp
as seconds from the epoch at offset zero (a naive datetime's local-time
offset shifts every key by the same constant, leaving the sort order the
model proves things about unchanged). -/

/-- Numeric value of a digit character. -/
def chVal (c : Char) : Nat := c.toNat - '0'.toNat

/-- Decimal value of a digit list. -/
def digsVal (ds : List Char) : Nat := ds.foldl (fun a c => a * 10 + chVal c) 0

/-- Gregorian leap year. -/
def isLeap (y : Nat) : Bool := y % 4 = 0 && (y % 100 ≠ 0 || y % 400 = 0)

/-- Days in a month. -/
def daysInMonth (y m : Nat) : Nat :=
  if m = 2 then (if isLeap y then 29 else 28)
  else if m = 4 || m = 6 || m = 9 || m = 11 then 30
  else 31

/-- A parsed naive datetime. -/
structure PyDateTime where
  y : Nat
  m : Nat
  d : Nat
  hh : Nat
  mi : Nat
  ss : Nat
deriving DecidableEq, Repr

/-- Python `datetime.min`: year 1, January 1, midnight. -/
def pyDateTimeMin : PyDateTime := ⟨1, 1, 1, 0, 0, 0⟩

/-- Time part `HH:MM` or `HH:MM:SS`, validated. -/
def pyIsoTime (cs : List Char) : Option (Nat × Nat × Nat) :=
  match takeDigs 2 cs with
  | none => none
  | some (h, cs1) =>
    match expect ':' cs1 with
    | none => none
    | some cs2 =>
      match takeDigs 2 cs2 with
      | none => none
      | some (mi, cs3) =>
        let fin : Nat → Option (Nat × Nat × Nat) := fun s =>
          if digsVal h < 24 && digsVal mi < 60 && s < 60 then
            some (digsVal h, digsVal mi, s)
          else none
        match cs3 with
        | [] => fin 0
        | _ =>
          match expect ':' cs3 with
          | none => none
          | some cs4 =>
            match takeDigs 2 cs4 with
            | none => none
            | some (s, cs5) => if cs5 = [] then fin (digsVal s) else none

/-- Python `datetime.fromisoformat` (the core grammar used by the post files):
`YYYY-MM-DD` with a valid calendar date, optionally followed by exactly one
separator character and a validated `HH:MM[:SS]`. -/
def pyFromIso (s : String) : Option PyDateTime :=
  match takeDigs 4 s.data with
  | none => none
  | some (ys, cs1) =>
    match expect '-' cs1 with
    | none => none
    | some cs2 =>
      match takeDigs 2 cs2 with
      | none => none
      | some (ms, cs3) =>
        match expect '-' cs3 with
        | none => none
        | some cs4 =>
          match takeDigs 2 cs4 with
          | none => none
          | some (ds, cs5) =>
            let y := digsVal ys
            let m := digsVal ms
            let d := digsVal ds
            if 1 ≤ y ∧ 1 ≤ m ∧ m ≤ 12 ∧ 1 ≤ d ∧ d ≤ daysInMonth y m then
              match cs5 with
              | [] => some ⟨y, m, d, 0, 0, 0⟩
              | _ :: time =>
                match pyIsoTime time with
                | some (hh, mi, ss) => some ⟨y, m, d, hh, mi, ss⟩
                | none => none
            else none

/-- Days from 1970-01-01 of a valid Gregorian date (`y ≥ 1`), the
days-from-civil algorithm. -/
def daysFromCivil (y m d : Nat) : Int :=
  let yy := y - (if m ≤ 2 then 1 else 0)
  let era := yy / 400
  let yoe := yy - era * 400
  let mp := (m + 9) % 12
  let doy := (153 * mp + 2) / 5 + d - 1
  let doe := yoe * 365 + yoe / 4 - yoe / 100 + doy
  (era * 146097 + doe : Int) - 719468

/-- Python `datetime.timestamp()` at offset zero, in whole seconds. -/
def pyTimestamp (dt : PyDateTime) : Int :=
  daysFromCivil dt.y dt.m dt.d * 86400 + dt.hh * 3600 + dt.mi * 60 + dt.ss

/-- Everything after the first `':'` (Python `line.split(":", 1)[1]`, under
the guard that the line contains one). -/
def afterFirstColon : List Char → List Char
  | [] => []
  | c :: cs => if c = ':' then cs else afterFirstColon cs

/-- The quote stripping of bot.py lines 494-495 / 499-500:
`raw[1:-1]` when `raw` starts and ends with `'"'`. -/
def unquote (cs : List Char) : List Char :=
  if cs.head? = some '"' ∧ cs.getLast? = some '"' then (cs.drop 1).dropLast
  else cs

/-- The frontmatter scan of bot.py lines 488-501: walk the lines after the
opening `---`, stopping at a closing `---`; a stripped line starting with
`title:` (resp. `date:`) updates the title (empty falls back to the slug),
resp. the date string (empty becomes `None`). -/
def scanFront (slug : String) : List String → String → Option String →
    String × Option String
  | [], title, d => (title, d)
  | line :: rest, title, d =>
    let s := pyStrip line.data
    if s = "---".data then (title, d)
    else
      let raw := unquote (pyStrip (afterFirstColon line.data))
      let title' :=
        if "title:".data.isPrefixOf s then
          (if raw.isEmpty then slug else String.mk raw)
        else title
      let d' :=
        if "date:".data.isPrefixOf s then
          (if raw.isEmpty then none else some (String.mk raw))
        else d
      scanFront slug rest title' d'

/-- bot.py lines 479-504: one file's `(slug, title, date-string)` triple;
without a leading `---` line the title stays the slug and the date `None`. -/
def extractPost (slug : String) (lines : List String) :
    String × String × Option String :=
  match lines with
  | [] => (slug, slug, none)
  | first :: rest =>
    if pyStrip first.data = "---".data then
      let td := scanFront slug rest slug none
      (slug, td.1, td.2)
    else (slug, slug, none)

/-- The `sort_key` of bot.py lines 506-517: `(-dt.timestamp(), slug)`, where
`dt` is the parsed date, or `datetime.min` when absent or unparseable. -/
def postKey (p : String × String × Option String) : Int × String :=
  let ts :=
    match p.2.2 with
    | none => pyTimestamp pyDateTimeMin
    | some s =>
      match pyFromIso s with
      | some dt => pyTimestamp dt
      | none => pyTimestamp pyDateTimeMin
  (-ts, p.1)

/-- Python string `<`: lexicographic comparison of code points, a proper
non-empty extension being greater. -/
def listLtChars : List Char → List Char → Bool
  | [], [] => false
  | [], _ :: _ => true
  | _ :: _, [] => false
  | a :: as, b :: bs =>
    if a.toNat < b.toNat then true
    else if b.toNat < a.toNat then false
    else listLtChars as bs

/-- Python `s1 < s2` on strings. -/
def strLt (a b : String) : Bool :=
  listLtChars a.data b.data

/-- The non-strict companion of `strLt` (a total order). -/
def strLe (a b : String) : Bool :=
  !(strLt b a)

/-- Strict lexicographic order on the sort keys. -/
def keyLt (a b : Int × String) : Bool :=
  a.1 < b.1 || (a.1 = b.1 && strLt a.2 b.2)

/-- Non-strict lexicographic order on the sort keys. -/
def keyLe (a b : Int × String) : Bool :=
  a.1 < b.1 || (a.1 = b.1 && strLe a.2 b.2)

/-- Insert after every element not strictly greater — the stable insertion
underlying `list.sort`. -/
def stableInsert {α : Type} (lt : α → α → Bool) (a : α) : List α → List α
  | [] => [a]
  | b :: bs => if lt a b then a :: b :: bs else b :: stableInsert lt a bs

/-- Stable sort by a strict comparison (Python `list.sort(key=...)`). -/
def stableSort {α : Type} (lt : α → α → Bool) (l : List α) : List α :=
  l.foldl (fun acc x => stableInsert lt x acc) []

/-- bot.py lines 472-519 up to the final projection: the extracted
`(slug, title, date)` triples, sorted by `sort_key`. -/
def listBlogPostsTriples (files : List (String × List String)) :
    List (String × String × Option String) :=
  stableSort (fun a b => keyLt (postKey a) (postKey b))
    (files.map (fun f => extractPost f.1 f.2))

/-- bot.py lines 472-521, `list_blog_posts`: the sorted `(slug, title)`
pairs. -/
def list_blog_posts (files : List (String × List String)) :
    List (String × String) :=
  (listBlogPostsTriples files).map (fun x => (x.1, x.2.1))

/-! ## Lemmas about the collection primitives -/

lemma alistGet_alistSet_self {α : Type} (k : String) (v : α) :
    ∀ l : List (String × α), alistGet k (alistSet k v l) = some v := by
  intro l
  induction l with
  | nil => simp [alistSet, alistGet]
  | cons p rest ih =>
    obtain ⟨k', v'⟩ := p
    by_cases hk : k' = k
    · simp [alistSet, alistGet, hk]
    · simp [alistSet, alistGet, hk, ih]

lemma mem_insSorted {a x : String} :
    ∀ {l : List String}, x ∈ insSorted a l → x = a ∨ x ∈ l := by
  intro l
  induction l with
  | nil => simp [insSorted]
  | cons b bs ih =>
    intro hx
    simp only [insSorted] at hx
    split_ifs at hx with h1 h2
    · rcases List.mem_cons.mp hx with h | h
      · exact Or.inl h
      · exact Or.inr h
    · exact Or.inr hx
    · rcases List.mem_cons.mp hx with h | h
      · exact Or.inr (List.mem_cons.mpr (Or.inl h))
      · rcases ih h with h' | h'
        · exact Or.inl h'
        · exact Or.inr (List.mem_cons.mpr (Or.inr h'))

lemma pairwise_insSorted (a : String) :
    ∀ {l : List String}, l.Pairwise (· < ·) → (insSorted a l).Pairwise (· < ·) := by
  intro l
  induction l with
  | nil => intro _; simp [insSorted]
  | cons b bs ih =>
    intro h
    rcases List.pairwise_cons.mp h with ⟨hb, hbs⟩
    simp only [insSorted]
    split_ifs with h1 h2
    · refine List.pairwise_cons.mpr ⟨?_, h⟩
      intro x hx
      rcases List.mem_cons.mp hx with rfl | hx
      · exact h1
      · exact lt_trans h1 (hb x hx)
    · exact h
    · refine List.pairwise_cons.mpr ⟨?_, ih hbs⟩
      intro x hx
      rcases mem_insSorted hx with rfl | hx
      · exact lt_of_le_of_ne (le_of_not_lt h1) (fun hba => h2 hba.symm)
      · exact hb x hx

lemma sortedSet_pairwise (l : List String) : (sortedSet l).Pairwise (· < ·) := by
  induction l with
  | nil => simp [sortedSet]
  | cons x xs ih => exact pairwise_insSorted x ih

lemma sortedSet_nodup (l : List String) : (sortedSet l).Nodup :=
  (sortedSet_pairwise l).imp ne_of_lt

/-! ## C4 and C5: adding a slot -/

/-- C4.  For every slots collection and every successfully parsed add-slot
input: a start time already present in the date's list makes the add a no-op
on the collection with an "already present" report; otherwise the start time
is stored and the stored per-date list is strictly ascending
(`Pairwise (· < ·)`, i.e. sorted ascending with no duplicates). -/
theorem C4_add_slot_noop_or_dedup_sorted (Y : Nat) (slots : Slots) (text : String)
    (d t1 t2 : String)
    (hp : parse_date_range Y text = some (d, t1, t2)) :
    (t1 ∈ (alistGet d slots).getD [] →
        handle_add_slot Y slots text = (slots, .alreadyPresent (format_date_ru d) t1))
    ∧ (t1 ∉ (alistGet d slots).getD [] →
        handle_add_slot Y slots text =
          (alistSet d (sortedSet ((alistGet d slots).getD [] ++ [t1])) slots,
           .added d (format_date_ru d) t1 t2)
        ∧ alistGet d (handle_add_slot Y slots text).1 =
            some (sortedSet ((alistGet d slots).getD [] ++ [t1]))
        ∧ (sortedSet ((alistGet d slots).getD [] ++ [t1])).Pairwise (· < ·)
        ∧ (sortedSet ((alistGet d slots).getD [] ++ [t1])).Nodup) := by
  constructor
  · intro hm
    simp [handle_add_slot, hp, hm]
  · intro hnm
    refine ⟨by simp [handle_add_slot, hp, hnm], ?_, sortedSet_pairwise _, sortedSet_nodup _⟩
    simp [handle_add_slot, hp, hnm, alistGet_alistSet_self]

/-- Witness for C4 at a concrete input (empty collection, fresh slot). -/
theorem C4_witness :
    handle_add_slot 2026 [] "10.02 10:00 11:00" =
      (alistSet "2026-02-10" (sortedSet ([] ++ ["10:00"])) [],
       .added "2026-02-10" (format_date_ru "2026-02-10") "10:00" "11:00")
    ∧ (sortedSet ([] ++ ["10:00"])).Nodup := by
  have h := C4_add_slot_noop_or_dedup_sorted 2026 [] "10.02 10:00 11:00"
    "2026-02-10" "10:00" "11:00" (by decide)
  have h2 := h.2 (by decide)
  exact ⟨h2.1, h2.2.2.2⟩

/-- C5.  A successful add persists only the start time of the entered range:
the new collection value is built from the old day list and `t1` alone, the
end time `t2` influencing only the report; and concretely, with current year
2026, input `"10.02 10:00 11:00"` on an empty collection persists
`"2026-02-10" ↦ ["10:00"]` and reports the canonical formatted date
`"10 февраля 2026"`. -/
theorem C5_add_slot_persists_start_only (slots : Slots) (text : String)
    (d t1 t2 : String)
    (hp : parse_date_range 2026 text = some (d, t1, t2))
    (hnm : t1 ∉ (alistGet d slots).getD []) :
    handle_add_slot 2026 slots text =
      (alistSet d (sortedSet ((alistGet d slots).getD [] ++ [t1])) slots,
       .added d (format_date_ru d) t1 t2)
    ∧ handle_add_slot 2026 [] "10.02 10:00 11:00" =
        ([("2026-02-10", ["10:00"])],
         .added "2026-02-10" "10 февраля 2026" "10:00" "11:00") := by
  constructor
  · simp [handle_add_slot, hp, hnm]
  · decide

/-- Witness for C5 at a concrete input. -/
theorem C5_witness :
    handle_add_slot 2026 [] "10.02 10:00 11:00" =
      ([("2026-02-10", ["10:00"])],
       .added "2026-02-10" "10 февраля 2026" "10:00" "11:00") :=
  (C5_add_slot_persists_start_only [] "10.02 10:00 11:00" "2026-02-10" "10:00" "11:00"
    (by decide) (by decide)).2

/-! ## Lemmas about slot deletion -/

lemma alistGet_not_mem_keys {α : Type} (k : String) :
    ∀ l : List (String × α), k ∉ l.map Prod.fst → alistGet k l = none := by
  intro l
  induction l with
  | nil => intro _; rfl
  | cons p rest ih =>
    obtain ⟨k', v'⟩ := p
    intro hk
    simp only [List.map_cons, List.mem_cons] at hk
    push_neg at hk
    have h1 : ¬ k' = k := fun h => hk.1 h.symm
    simp [alistGet, h1, ih hk.2]

lemma alistGet_alistDel {α : Type} (k : String) :
    ∀ l : List (String × α), (l.map Prod.fst).Nodup →
      alistGet k (alistDel k l) = none := by
  intro l
  induction l with
  | nil => intro _; rfl
  | cons p rest ih =>
    obtain ⟨k', v'⟩ := p
    intro hnd
    simp only [List.map_cons, List.nodup_cons] at hnd
    obtain ⟨hk', hrest⟩ := hnd
    by_cases h : k' = k
    · subst h
      simp [alistDel, alistGet_not_mem_keys k' rest hk']
    · simp [alistDel, h, alistGet, ih hrest]

lemma mem_alistSet {α : Type} (k : String) (v : α) :
    ∀ l : List (String × α), ∀ p ∈ alistSet k v l, p = (k, v) ∨ p ∈ l := by
  intro l
  induction l with
  | nil => intro p hp; simp [alistSet] at hp; exact Or.inl hp
  | cons q rest ih =>
    obtain ⟨k', v'⟩ := q
    intro p hp
    by_cases h : k' = k
    · simp only [alistSet, if_pos h] at hp
      rcases List.mem_cons.mp hp with rfl | hp
      · exact Or.inl rfl
      · exact Or.inr (List.mem_cons.mpr (Or.inr hp))
    · simp only [alistSet, if_neg h] at hp
      rcases List.mem_cons.mp hp with rfl | hp
      · exact Or.inr (List.mem_cons.mpr (Or.inl rfl))
      · rcases ih p hp with h' | h'
        · exact Or.inl h'
        · exact Or.inr (List.mem_cons.mpr (Or.inr h'))

lemma mem_alistDel {α : Type} (k : String) :
    ∀ l : List (String × α), ∀ p ∈ alistDel k l, p ∈ l := by
  intro l
  induction l with
  | nil => intro p hp; simp [alistDel] at hp
  | cons q rest ih =>
    obtain ⟨k', v'⟩ := q
    intro p hp
    by_cases h : k' = k
    · simp only [alistDel, if_pos h] at hp
      exact List.mem_cons.mpr (Or.inr hp)
    · simp only [alistDel, if_neg h] at hp
      rcases List.mem_cons.mp hp with rfl | hp
      · exact List.mem_cons.mpr (Or.inl rfl)
      · exact List.mem_cons.mpr (Or.inr (ih p hp))

lemma removeSlotTime_lookup (slots : Slots) (d t : String) (ts : List String)
    (hnd : (slots.map Prod.fst).Nodup) (hget : alistGet d slots = some ts) :
    alistGet d (removeSlotTime slots d t) =
      if ts.filter (fun x => x ≠ t) = [] then none
      else some (ts.filter (fun x => x ≠ t)) := by
  rcases hfe : ts.filter (fun x => x ≠ t) with _ | ⟨a, as⟩
  · rw [if_pos rfl]
    simp only [removeSlotTime, hget, hfe]
    exact alistGet_alistDel d slots hnd
  · rw [if_neg (by simp)]
    simp only [removeSlotTime, hget, hfe]
    exact alistGet_alistSet_self d (a :: as) slots

lemma not_mem_filter_ne (t : String) (ts : List String) :
    t ∉ ts.filter (fun x => x ≠ t) := by
  simp [List.mem_filter]

lemma removeSlotTime_not_mem (slots : Slots) (d t : String) (ts : List String)
    (hnd : (slots.map Prod.fst).Nodup) (hget : alistGet d slots = some ts) :
    ∀ ts', alistGet d (removeSlotTime slots d t) = some ts' → t ∉ ts' := by
  intro ts' h'
  rw [removeSlotTime_lookup slots d t ts hnd hget] at h'
  by_cases hfe : ts.filter (fun x => x ≠ t) = []
  · rw [if_pos hfe] at h'
    cases h'
  · rw [if_neg hfe] at h'
    injection h' with h''
    subst h''
    exact not_mem_filter_ne t ts

lemma removeSlotTime_preserve (slots : Slots) (d t : String)
    (hinv : ∀ p ∈ slots, p.2 ≠ []) :
    ∀ p ∈ removeSlotTime slots d t, p.2 ≠ [] := by
  intro p hp
  rcases hget : alistGet d slots with _ | ts
  · simp only [removeSlotTime, hget] at hp
    exact hinv p hp
  · rcases hfe : ts.filter (fun x => x ≠ t) with _ | ⟨a, as⟩
    · simp only [removeSlotTime, hget, hfe] at hp
      exact hinv p (mem_alistDel d slots p hp)
    · simp only [removeSlotTime, hget, hfe] at hp
      rcases mem_alistSet d (a :: as) slots p hp with rfl | hp
      · simp
      · exact hinv p hp

/-! ## C2: the delete-slot confirmation gate -/

/-- C2.  For a slot (date, time) present in the collection: with zero
matching bookings, `delete_slot_and_notify` removes it at once (and the
removed time is gone from the stored list); with at least one matching
booking, it changes nothing and only asks for confirmation, the removal
happening only in the positive-confirmation handler; the declining handler
leaves both collections exactly as they were. -/
theorem C2_delete_confirmation_gate (slots : Slots) (bookings : List Booking)
    (d t : String) (ts : List String)
    (hnd : (slots.map Prod.fst).Nodup)
    (hget : alistGet d slots = some ts) (hmem : t ∈ ts) :
    (bookings.filter (bookingMatches d t) = [] →
        delete_slot_and_notify slots bookings d t =
          (removeSlotTime slots d t, bookings, .deleted d t)
        ∧ ∀ ts', alistGet d (removeSlotTime slots d t) = some ts' → t ∉ ts')
    ∧ (bookings.filter (bookingMatches d t) ≠ [] →
        delete_slot_and_notify slots bookings d t =
          (slots, bookings, .needsConfirm (bookings.filter (bookingMatches d t)))
        ∧ ∀ ts', alistGet d (handle_confirm_delete_callback slots bookings d t).1 =
            some ts' → t ∉ ts')
    ∧ handle_cancel_delete_callback slots bookings = (slots, bookings) := by
  refine ⟨?_, ?_, rfl⟩
  · intro hfe
    exact ⟨by simp [delete_slot_and_notify, hget, hmem, hfe],
           removeSlotTime_not_mem slots d t ts hnd hget⟩
  · intro hne
    constructor
    · rcases hb : bookings.filter (bookingMatches d t) with _ | ⟨b, bs⟩
      · exact absurd hb hne
      · simp [delete_slot_and_notify, hget, hmem, hb]
    · have hs : (handle_confirm_delete_callback slots bookings d t).1 =
          removeSlotTime slots d t := by
        simp [handle_confirm_delete_callback, hget, hmem]
      rw [hs]
      exact removeSlotTime_not_mem slots d t ts hnd hget

/-- Witness for C2: a concrete slot with no bookings is deleted at once, and
with one booking the state is untouched pending confirmation. -/
theorem C2_witness :
    (delete_slot_and_notify [("2026-02-10", ["10:00"])] [] "2026-02-10" "10:00" =
      (removeSlotTime [("2026-02-10", ["10:00"])] "2026-02-10" "10:00", [],
       .deleted "2026-02-10" "10:00"))
    ∧ (delete_slot_and_notify [("2026-02-10", ["10:00"])]
        [⟨some "2026-02-10", some "10:00", some "Анна", none⟩] "2026-02-10" "10:00" =
      ([("2026-02-10", ["10:00"])],
       [⟨some "2026-02-10", some "10:00", some "Анна", none⟩],
       .needsConfirm [⟨some "2026-02-10", some "10:00", some "Анна", none⟩])) := by
  constructor
  · exact ((C2_delete_confirmation_gate [("2026-02-10", ["10:00"])] [] "2026-02-10"
      "10:00" ["10:00"] (by decide) (by decide) (by decide)).1 (by decide)).1
  · exact ((C2_delete_confirmation_gate [("2026-02-10", ["10:00"])]
      [⟨some "2026-02-10", some "10:00", some "Анна", none⟩] "2026-02-10"
      "10:00" ["10:00"] (by decide) (by decide) (by decide)).2.1 (by decide)).1

/-! ## C1: what confirmed deletion does to the bookings file -/

/-- C1, counterexample.  One slot, one matching booking: the positive
confirmation callback empties the bookings collection — the matching Booking
record is **not** left in place, contrary to the claim (it is removed and
reported as cancelled). -/
theorem C1_counterexample :
    handle_confirm_delete_callback [("2026-02-10", ["10:00"])]
        [⟨some "2026-02-10", some "10:00", some "Анна", some "+79990000000"⟩]
        "2026-02-10" "10:00" =
      ([], [], [⟨some "2026-02-10", some "10:00", some "Анна", some "+79990000000"⟩])
    ∧ ([] : List Booking) ≠
        [⟨some "2026-02-10", some "10:00", some "Анна", some "+79990000000"⟩] := by
  decide

/-- C1 as amended.  When the operator confirms deletion of a slot with
matching bookings, the handler removes the slot time from the slots
collection **and** rewrites the bookings collection with only the
non-matching entries; the removed (matching) bookings are what it reports to
the operator as cancelled and needing notification. -/
theorem C1_confirmed_delete_cancels_bookings (slots : Slots)
    (bookings : List Booking) (d t : String) (ts : List String)
    (hnd : (slots.map Prod.fst).Nodup)
    (hget : alistGet d slots = some ts) (hmem : t ∈ ts)
    (_hb : bookings.filter (bookingMatches d t) ≠ []) :
    handle_confirm_delete_callback slots bookings d t =
      (removeSlotTime slots d t,
       bookings.filter (fun b => !bookingMatches d t b),
       bookings.filter (bookingMatches d t))
    ∧ (∀ ts', alistGet d (removeSlotTime slots d t) = some ts' → t ∉ ts') := by
  constructor
  · simp [handle_confirm_delete_callback, hget, hmem]
  · exact removeSlotTime_not_mem slots d t ts hnd hget

/-- Witness for the amended C1 at the counterexample's input. -/
theorem C1_witness :
    handle_confirm_delete_callback [("2026-02-10", ["10:00"])]
        [⟨some "2026-02-10", some "10:00", some "Анна", some "+79990000000"⟩]
        "2026-02-10" "10:00" =
      (removeSlotTime [("2026-02-10", ["10:00"])] "2026-02-10" "10:00",
       List.filter (fun b => !bookingMatches "2026-02-10" "10:00" b)
         [⟨some "2026-02-10", some "10:00", some "Анна", some "+79990000000"⟩],
       List.filter (bookingMatches "2026-02-10" "10:00")
         [⟨some "2026-02-10", some "10:00", some "Анна", some "+79990000000"⟩]) :=
  (C1_confirmed_delete_cancels_bookings [("2026-02-10", ["10:00"])]
    [⟨some "2026-02-10", some "10:00", some "Анна", some "+79990000000"⟩]
    "2026-02-10" "10:00" ["10:00"] (by decide) (by decide) (by decide) (by decide)).1

/-! ## C10: no date ever maps to an empty time list -/

/-- C10.  Both slot-deletion paths preserve the invariant that no date maps
to an empty time list, and when the deleted time was the date's last one the
date key itself disappears: stated for `delete_slot_and_notify` (its delete
branch runs when no booking matches) and for the confirmation callback. -/
theorem C10_deletion_keeps_time_lists_nonempty (slots : Slots)
    (bookings : List Booking) (d t : String) (ts : List String)
    (hnd : (slots.map Prod.fst).Nodup)
    (hget : alistGet d slots = some ts)
    (hinv : ∀ p ∈ slots, p.2 ≠ []) :
    (∀ p ∈ (delete_slot_and_notify slots bookings d t).1, p.2 ≠ [])
    ∧ (∀ p ∈ (handle_confirm_delete_callback slots bookings d t).1, p.2 ≠ [])
    ∧ (t ∈ ts → ts.filter (fun x => x ≠ t) = [] →
        bookings.filter (bookingMatches d t) = [] →
        alistGet d (delete_slot_and_notify slots bookings d t).1 = none)
    ∧ (t ∈ ts → ts.filter (fun x => x ≠ t) = [] →
        alistGet d (handle_confirm_delete_callback slots bookings d t).1 = none) := by
  have hrem : ∀ p ∈ removeSlotTime slots d t, p.2 ≠ [] :=
    removeSlotTime_preserve slots d t hinv
  have hremGet : ts.filter (fun x => x ≠ t) = [] →
      alistGet d (removeSlotTime slots d t) = none := by
    intro hfe
    rw [removeSlotTime_lookup slots d t ts hnd hget, if_pos hfe]
  refine ⟨?_, ?_, ?_, ?_⟩
  · by_cases hmem : t ∈ ts
    · rcases hb : bookings.filter (bookingMatches d t) with _ | ⟨b, bs⟩
      · simpa [delete_slot_and_notify, hget, hmem, hb] using hrem
      · simpa [delete_slot_and_notify, hget, hmem, hb] using hinv
    · simpa [delete_slot_and_notify, hget, hmem] using hinv
  · by_cases hmem : t ∈ ts
    · simpa [handle_confirm_delete_callback, hget, hmem] using hrem
    · simpa [handle_confirm_delete_callback, hget, hmem] using hinv
  · intro hmem hfe hb
    simp only [delete_slot_and_notify, hget, if_pos hmem, hb]
    exact hremGet hfe
  · intro hmem hfe
    simp only [handle_confirm_delete_callback, hget, if_pos hmem]
    exact hremGet hfe

/-- Witness for C10: deleting the only time of a date removes the date key
on both paths. -/
theorem C10_witness :
    alistGet "2026-02-10"
        (delete_slot_and_notify [("2026-02-10", ["10:00"])] [] "2026-02-10" "10:00").1
      = none
    ∧ alistGet "2026-02-10"
        (handle_confirm_delete_callback [("2026-02-10", ["10:00"])] []
          "2026-02-10" "10:00").1
      = none := by
  have h := C10_deletion_keeps_time_lists_nonempty [("2026-02-10", ["10:00"])] []
    "2026-02-10" "10:00" ["10:00"] (by decide) (by decide) (by decide)
  exact ⟨h.2.2.1 (by decide) (by decide) (by decide), h.2.2.2 (by decide) (by decide)⟩

/-! ## C3: admin-token issuance fails closed -/

/-- C3.  `issue_admin_token` with no configured secret raises a configuration
error and leaves the credential table untouched; with a secret it writes
exactly the single fixed-id row, holding the HMAC-SHA256 hex digest of the
raw token (not the token), issued-at, and expiry `issued_at + TTL` where the
TTL is exactly 4 hours. -/
theorem C3_issue_admin_token_fails_closed (secret : String) (chat_id : Int)
    (rawToken : String) (issuedAt : Int) (store : Option CredRow) :
    (secret = "" →
        issue_admin_token secret chat_id rawToken issuedAt store =
          (store, .error "Не задан ADMIN_TOKEN_HASH_SECRET в .env"))
    ∧ (secret ≠ "" →
        issue_admin_token secret chat_id rawToken issuedAt store =
          (some ⟨_hash_admin_token secret rawToken, issuedAt,
                 issuedAt + ADMIN_TOKEN_TTL_SECONDS, toString chat_id⟩,
           .ok (rawToken, issuedAt + ADMIN_TOKEN_TTL_SECONDS)))
    ∧ ADMIN_TOKEN_TTL_SECONDS = 4 * 60 * 60 := by
  refine ⟨?_, ?_, rfl⟩
  · intro h
    simp [issue_admin_token, h]
  · intro h
    simp [issue_admin_token, h]

/-- Witness for C3: refusal with an empty secret, a single digest-bearing row
with a configured one. -/
theorem C3_witness :
    issue_admin_token "" 7 "tok" 0 none =
      (none, .error "Не задан ADMIN_TOKEN_HASH_SECRET в .env")
    ∧ issue_admin_token "k" 7 "tok" 0 none =
        (some ⟨_hash_admin_token "k" "tok", 0, 0 + ADMIN_TOKEN_TTL_SECONDS,
               toString (7 : Int)⟩,
         .ok ("tok", 0 + ADMIN_TOKEN_TTL_SECONDS)) :=
  ⟨(C3_issue_admin_token_fails_closed "" 7 "tok" 0 none).1 rfl,
   (C3_issue_admin_token_fails_closed "k" 7 "tok" 0 none).2.1 (by decide)⟩

/-! ## C7: inserting a video at a 1-based position -/

/-- C7, counterexample.  On a two-video list, position `-1` (below the valid
range) appends at the end instead of clamping to position 1 as the claim
states: the new item lands at index 2, not index 0. -/
theorem C7_counterexample :
    saveVideoInsert [⟨"a", "10", none⟩, ⟨"b", "20", none⟩] (some (-1))
        ⟨"c", "30", none⟩
      = [⟨"a", "10", none⟩, ⟨"b", "20", none⟩, ⟨"c", "30", none⟩]
    ∧ ([⟨"a", "10", none⟩, ⟨"b", "20", none⟩, ⟨"c", "30", none⟩] : List Video)
      ≠ [⟨"c", "30", none⟩, ⟨"a", "10", none⟩, ⟨"b", "20", none⟩] := by
  decide

/-- C7 as amended.  A missing position or any position outside `[1, len+1]`
(in either direction, including `0`) appends the new video at the end; a
position inside the range yields a list of length `len+1` with the new video
at 0-based index `pos-1` and the pre-existing videos' relative order
preserved (the result is `take (pos-1) ++ new :: drop (pos-1)`). -/
theorem C7_insert_position (videos : List Video) (p : Int) (v : Video) :
    (saveVideoInsert videos none v = videos ++ [v])
    ∧ ((p < 1 ∨ (videos.length : Int) + 1 < p) →
        saveVideoInsert videos (some p) v = videos ++ [v])
    ∧ (1 ≤ p → p ≤ (videos.length : Int) + 1 →
        saveVideoInsert videos (some p) v =
          videos.take (p - 1).toNat ++ v :: videos.drop (p - 1).toNat
        ∧ (saveVideoInsert videos (some p) v).length = videos.length + 1
        ∧ (saveVideoInsert videos (some p) v)[(p - 1).toNat]? = some v) := by
  refine ⟨rfl, ?_, ?_⟩
  · intro h
    simp only [saveVideoInsert]
    split_ifs with h0 hr
    · rfl
    · exfalso; omega
    · rfl
  · intro h1 h2
    have h0 : ¬ p = 0 := by omega
    have hn : (p - 1).toNat ≤ videos.length := by omega
    have hres : saveVideoInsert videos (some p) v =
        videos.take (p - 1).toNat ++ v :: videos.drop (p - 1).toNat := by
      simp only [saveVideoInsert, if_neg h0, if_pos (And.intro h1 h2), pyInsert]
    have htake : (videos.take (p - 1).toNat).length = (p - 1).toNat := by
      rw [List.length_take, Nat.min_eq_left hn]
    refine ⟨hres, ?_, ?_⟩
    · rw [hres]
      simp [List.length_take, List.length_drop]
      omega
    · rw [hres, List.getElem?_append_right htake.le, htake]
      simp

/-- Witness for C7: above-range position 5 on a two-video list appends; an
in-range position keeps the length bookkeeping. -/
theorem C7_witness :
    saveVideoInsert [⟨"a", "10", none⟩, ⟨"b", "20", none⟩] (some 5) ⟨"c", "30", none⟩
      = [⟨"a", "10", none⟩, ⟨"b", "20", none⟩] ++ [⟨"c", "30", none⟩]
    ∧ (saveVideoInsert [⟨"a", "10", none⟩, ⟨"b", "20", none⟩] (some 2)
        ⟨"c", "30", none⟩).length = 3 := by
  refine ⟨(C7_insert_position [⟨"a", "10", none⟩, ⟨"b", "20", none⟩] 5
    ⟨"c", "30", none⟩).2.1 (by decide), ?_⟩
  have h := ((C7_insert_position [⟨"a", "10", none⟩, ⟨"b", "20", none⟩] 2
    ⟨"c", "30", none⟩).2.2 (by decide) (by decide)).2.1
  simpa using h

/-! ## Symbolic evaluation of the date grammars -/

lemma not_ws_of_dig {c : Char} (h : isDig c = true) : isWs c = false := by
  simp [isDig] at h
  simp [isWs]
  omega

/-- The DD.MM grammar on arbitrary digit characters: the result is assembled
from the digits as matched, with `f"{year:04d}-{month}-{day}"`. -/
lemma parse_g1_eval (Y : Nat) (d1 d2 m1 m2 h1 h2 n1 n2 : Char)
    (hd1 : isDig d1 = true) (hd2 : isDig d2 = true)
    (hm1 : isDig m1 = true) (hm2 : isDig m2 = true)
    (hh1 : isDig h1 = true) (hh2 : isDig h2 = true)
    (hn1 : isDig n1 = true) (hn2 : isDig n2 = true) :
    parse_date_time Y (String.mk [d1, d2, '.', m1, m2, ' ', h1, h2, ':', n1, n2]) =
      some (String.mk ((pad4 Y).data ++ ['-', m1, m2, '-', d1, d2]),
            String.mk [h1, h2, ':', n1, n2]) := by
  simp [parse_date_time, pyStrip, matchISO, matchG2, matchG1,
    takeDigs, dotDash, ws1, matchTime, expect, dropWs,
    hd1, hd2, hm1, hm2, hh1, hh2, hn1, hn2,
    not_ws_of_dig hd1, not_ws_of_dig hd2, not_ws_of_dig hm1, not_ws_of_dig hm2,
    not_ws_of_dig hh1, not_ws_of_dig hh2, not_ws_of_dig hn1, not_ws_of_dig hn2,
    show isWs ' ' = true from by decide,
    show isDig '.' = false from by decide,
    show isDig ':' = false from by decide]

/-- The DD.MM.YYYY grammar on arbitrary digit characters. -/
lemma parse_g2_eval (Y : Nat) (y1 y2 y3 y4 d1 d2 m1 m2 h1 h2 n1 n2 : Char)
    (hy1 : isDig y1 = true) (hy2 : isDig y2 = true)
    (hy3 : isDig y3 = true) (hy4 : isDig y4 = true)
    (hd1 : isDig d1 = true) (hd2 : isDig d2 = true)
    (hm1 : isDig m1 = true) (hm2 : isDig m2 = true)
    (hh1 : isDig h1 = true) (hh2 : isDig h2 = true)
    (hn1 : isDig n1 = true) (hn2 : isDig n2 = true) :
    parse_date_time Y
        (String.mk [d1, d2, '.', m1, m2, '.', y1, y2, y3, y4, ' ',
                    h1, h2, ':', n1, n2]) =
      some (String.mk [y1, y2, y3, y4, '-', m1, m2, '-', d1, d2],
            String.mk [h1, h2, ':', n1, n2]) := by
  simp [parse_date_time, pyStrip, matchISO, matchG2, matchG1,
    takeDigs, dotDash, ws1, matchTime, expect, dropWs,
    hy1, hy2, hy3, hy4, hd1, hd2, hm1, hm2, hh1, hh2, hn1, hn2,
    not_ws_of_dig hy1, not_ws_of_dig hy2, not_ws_of_dig hy3, not_ws_of_dig hy4,
    not_ws_of_dig hd1, not_ws_of_dig hd2, not_ws_of_dig hm1, not_ws_of_dig hm2,
    not_ws_of_dig hh1, not_ws_of_dig hh2, not_ws_of_dig hn1, not_ws_of_dig hn2,
    show isWs ' ' = true from by decide,
    show isDig '.' = false from by decide,
    show isDig ':' = false from by decide]

/-- The ISO grammar on arbitrary digit characters. -/
lemma parse_iso_eval (Y : Nat) (y1 y2 y3 y4 d1 d2 m1 m2 h1 h2 n1 n2 : Char)
    (hy1 : isDig y1 = true) (hy2 : isDig y2 = true)
    (hy3 : isDig y3 = true) (hy4 : isDig y4 = true)
    (hd1 : isDig d1 = true) (hd2 : isDig d2 = true)
    (hm1 : isDig m1 = true) (hm2 : isDig m2 = true)
    (hh1 : isDig h1 = true) (hh2 : isDig h2 = true)
    (hn1 : isDig n1 = true) (hn2 : isDig n2 = true) :
    parse_date_time Y
        (String.mk [y1, y2, y3, y4, '-', m1, m2, '-', d1, d2, ' ',
                    h1, h2, ':', n1, n2]) =
      some (String.mk [y1, y2, y3, y4, '-', m1, m2, '-', d1, d2],
            String.mk [h1, h2, ':', n1, n2]) := by
  simp [parse_date_time, pyStrip, matchISO, matchG2, matchG1,
    takeDigs, dotDash, ws1, matchTime, expect, dropWs,
    hy1, hy2, hy3, hy4, hd1, hd2, hm1, hm2, hh1, hh2, hn1, hn2,
    not_ws_of_dig hy1, not_ws_of_dig hy2, not_ws_of_dig hy3, not_ws_of_dig hy4,
    not_ws_of_dig hd1, not_ws_of_dig hd2, not_ws_of_dig hm1, not_ws_of_dig hm2,
    not_ws_of_dig hh1, not_ws_of_dig hh2, not_ws_of_dig hn1, not_ws_of_dig hn2,
    show isWs ' ' = true from by decide,
    show isWs '-' = false from by decide,
    show isDig '-' = false from by decide,
    show isDig ':' = false from by decide]

set_option maxHeartbeats 1000000 in
/-- Evaluation of `parse_date_range` on a DD.MM input with two times. -/
lemma range_g1_eval (Y : Nat) (d1 d2 m1 m2 h1 h2 n1 n2 e1 e2 e3 e4 : Char)
    (hd1 : isDig d1 = true) (hd2 : isDig d2 = true)
    (hm1 : isDig m1 = true) (hm2 : isDig m2 = true)
    (hh1 : isDig h1 = true) (hh2 : isDig h2 = true)
    (hn1 : isDig n1 = true) (hn2 : isDig n2 = true)
    (he1 : isDig e1 = true) (he2 : isDig e2 = true)
    (he3 : isDig e3 = true) (he4 : isDig e4 = true) :
    parse_date_range Y
        (String.mk [d1, d2, '.', m1, m2, ' ', h1, h2, ':', n1, n2, ' ',
                    e1, e2, ':', e3, e4]) =
      some (String.mk ((pad4 Y).data ++ ['-', m1, m2, '-', d1, d2]),
            String.mk [h1, h2, ':', n1, n2], String.mk [e1, e2, ':', e3, e4]) := by
  simp [parse_date_range, pySplit, splitAux, pyStrip, dropWs,
    not_ws_of_dig hd1, not_ws_of_dig hd2, not_ws_of_dig hm1, not_ws_of_dig hm2,
    not_ws_of_dig hh1, not_ws_of_dig hh2, not_ws_of_dig hn1, not_ws_of_dig hn2,
    not_ws_of_dig he1, not_ws_of_dig he2, not_ws_of_dig he3, not_ws_of_dig he4,
    show isWs ' ' = true from by decide,
    show isWs '.' = false from by decide,
    show isWs ':' = false from by decide,
    parse_g1_eval Y d1 d2 m1 m2 h1 h2 n1 n2 hd1 hd2 hm1 hm2 hh1 hh2 hn1 hn2,
    parse_g1_eval Y d1 d2 m1 m2 e1 e2 e3 e4 hd1 hd2 hm1 hm2 he1 he2 he3 he4]

set_option maxHeartbeats 1000000 in
/-- Evaluation of `parse_date_range` on a DD.MM.YYYY input with two times. -/
lemma range_g2_eval (Y : Nat) (y1 y2 y3 y4 d1 d2 m1 m2 h1 h2 n1 n2 e1 e2 e3 e4 : Char)
    (hy1 : isDig y1 = true) (hy2 : isDig y2 = true)
    (hy3 : isDig y3 = true) (hy4 : isDig y4 = true)
    (hd1 : isDig d1 = true) (hd2 : isDig d2 = true)
    (hm1 : isDig m1 = true) (hm2 : isDig m2 = true)
    (hh1 : isDig h1 = true) (hh2 : isDig h2 = true)
    (hn1 : isDig n1 = true) (hn2 : isDig n2 = true)
    (he1 : isDig e1 = true) (he2 : isDig e2 = true)
    (he3 : isDig e3 = true) (he4 : isDig e4 = true) :
    parse_date_range Y
        (String.mk [d1, d2, '.', m1, m2, '.', y1, y2, y3, y4, ' ',
                    h1, h2, ':', n1, n2, ' ', e1, e2, ':', e3, e4]) =
      some (String.mk [y1, y2, y3, y4, '-', m1, m2, '-', d1, d2],
            String.mk [h1, h2, ':', n1, n2], String.mk [e1, e2, ':', e3, e4]) := by
  simp [parse_date_range, pySplit, splitAux, pyStrip, dropWs,
    not_ws_of_dig hy1, not_ws_of_dig hy2, not_ws_of_dig hy3, not_ws_of_dig hy4,
    not_ws_of_dig hd1, not_ws_of_dig hd2, not_ws_of_dig hm1, not_ws_of_dig hm2,
    not_ws_of_dig hh1, not_ws_of_dig hh2, not_ws_of_dig hn1, not_ws_of_dig hn2,
    not_ws_of_dig he1, not_ws_of_dig he2, not_ws_of_dig he3, not_ws_of_dig he4,
    show isWs ' ' = true from by decide,
    show isWs '.' = false from by decide,
    show isWs ':' = false from by decide,
    parse_g2_eval Y y1 y2 y3 y4 d1 d2 m1 m2 h1 h2 n1 n2
      hy1 hy2 hy3 hy4 hd1 hd2 hm1 hm2 hh1 hh2 hn1 hn2,
    parse_g2_eval Y y1 y2 y3 y4 d1 d2 m1 m2 e1 e2 e3 e4
      hy1 hy2 hy3 hy4 hd1 hd2 hm1 hm2 he1 he2 he3 he4]

set_option maxHeartbeats 1000000 in
/-- Evaluation of `parse_date_range` on an ISO input with two times. -/
lemma range_iso_eval (Y : Nat) (y1 y2 y3 y4 d1 d2 m1 m2 h1 h2 n1 n2 e1 e2 e3 e4 : Char)
    (hy1 : isDig y1 = true) (hy2 : isDig y2 = true)
    (hy3 : isDig y3 = true) (hy4 : isDig y4 = true)
    (hd1 : isDig d1 = true) (hd2 : isDig d2 = true)
    (hm1 : isDig m1 = true) (hm2 : isDig m2 = true)
    (hh1 : isDig h1 = true) (hh2 : isDig h2 = true)
    (hn1 : isDig n1 = true) (hn2 : isDig n2 = true)
    (he1 : isDig e1 = true) (he2 : isDig e2 = true)
    (he3 : isDig e3 = true) (he4 : isDig e4 = true) :
    parse_date_range Y
        (String.mk [y1, y2, y3, y4, '-', m1, m2, '-', d1, d2, ' ',
                    h1, h2, ':', n1, n2, ' ', e1, e2, ':', e3, e4]) =
      some (String.mk [y1, y2, y3, y4, '-', m1, m2, '-', d1, d2],
            String.mk [h1, h2, ':', n1, n2], String.mk [e1, e2, ':', e3, e4]) := by
  simp [parse_date_range, pySplit, splitAux, pyStrip, dropWs,
    not_ws_of_dig hy1, not_ws_of_dig hy2, not_ws_of_dig hy3, not_ws_of_dig hy4,
    not_ws_of_dig hd1, not_ws_of_dig hd2, not_ws_of_dig hm1, not_ws_of_dig hm2,
    not_ws_of_dig hh1, not_ws_of_dig hh2, not_ws_of_dig hn1, not_ws_of_dig hn2,
    not_ws_of_dig he1, not_ws_of_dig he2, not_ws_of_dig he3, not_ws_of_dig he4,
    show isWs ' ' = true from by decide,
    show isWs '-' = false from by decide,
    show isWs ':' = false from by decide,
    parse_iso_eval Y y1 y2 y3 y4 d1 d2 m1 m2 h1 h2 n1 n2
      hy1 hy2 hy3 hy4 hd1 hd2 hm1 hm2 hh1 hh2 hn1 hn2,
    parse_iso_eval Y y1 y2 y3 y4 d1 d2 m1 m2 e1 e2 e3 e4
      hy1 hy2 hy3 hy4 hd1 hd2 hm1 hm2 he1 he2 he3 he4]

/-! ## C6: the three grammars agree on equivalent instants -/

/-- C6.  A calendar instant written in any of the three supported grammars —
ISO `YYYY-MM-DD`, `DD.MM.YYYY`, or `DD.MM` with the year implied as the
current year (`(pad4 Y).data = [y1, y2, y3, y4]`) — parses to the identical
canonical (ISO date string, HH:MM) result, under both `parse_date_time` and
`parse_date_range`. -/
theorem C6_grammars_agree (Y : Nat)
    (y1 y2 y3 y4 d1 d2 m1 m2 h1 h2 n1 n2 e1 e2 e3 e4 : Char)
    (hy1 : isDig y1 = true) (hy2 : isDig y2 = true)
    (hy3 : isDig y3 = true) (hy4 : isDig y4 = true)
    (hd1 : isDig d1 = true) (hd2 : isDig d2 = true)
    (hm1 : isDig m1 = true) (hm2 : isDig m2 = true)
    (hh1 : isDig h1 = true) (hh2 : isDig h2 = true)
    (hn1 : isDig n1 = true) (hn2 : isDig n2 = true)
    (he1 : isDig e1 = true) (he2 : isDig e2 = true)
    (he3 : isDig e3 = true) (he4 : isDig e4 = true)
    (hpad : (pad4 Y).data = [y1, y2, y3, y4]) :
    parse_date_time Y
        (String.mk [y1, y2, y3, y4, '-', m1, m2, '-', d1, d2, ' ',
                    h1, h2, ':', n1, n2])
      = some (String.mk [y1, y2, y3, y4, '-', m1, m2, '-', d1, d2],
              String.mk [h1, h2, ':', n1, n2])
    ∧ parse_date_time Y
        (String.mk [d1, d2, '.', m1, m2, '.', y1, y2, y3, y4, ' ',
                    h1, h2, ':', n1, n2])
      = some (String.mk [y1, y2, y3, y4, '-', m1, m2, '-', d1, d2],
              String.mk [h1, h2, ':', n1, n2])
    ∧ parse_date_time Y
        (String.mk [d1, d2, '.', m1, m2, ' ', h1, h2, ':', n1, n2])
      = some (String.mk [y1, y2, y3, y4, '-', m1, m2, '-', d1, d2],
              String.mk [h1, h2, ':', n1, n2])
    ∧ parse_date_range Y
        (String.mk [y1, y2, y3, y4, '-', m1, m2, '-', d1, d2, ' ',
                    h1, h2, ':', n1, n2, ' ', e1, e2, ':', e3, e4])
      = some (String.mk [y1, y2, y3, y4, '-', m1, m2, '-', d1, d2],
              String.mk [h1, h2, ':', n1, n2], String.mk [e1, e2, ':', e3, e4])
    ∧ parse_date_range Y
        (String.mk [d1, d2, '.', m1, m2, '.', y1, y2, y3, y4, ' ',
                    h1, h2, ':', n1, n2, ' ', e1, e2, ':', e3, e4])
      = some (String.mk [y1, y2, y3, y4, '-', m1, m2, '-', d1, d2],
              String.mk [h1, h2, ':', n1, n2], String.mk [e1, e2, ':', e3, e4])
    ∧ parse_date_range Y
        (String.mk [d1, d2, '.', m1, m2, ' ', h1, h2, ':', n1, n2, ' ',
                    e1, e2, ':', e3, e4])
      = some (String.mk [y1, y2, y3, y4, '-', m1, m2, '-', d1, d2],
              String.mk [h1, h2, ':', n1, n2], String.mk [e1, e2, ':', e3, e4]) := by
  refine ⟨parse_iso_eval Y y1 y2 y3 y4 d1 d2 m1 m2 h1 h2 n1 n2
      hy1 hy2 hy3 hy4 hd1 hd2 hm1 hm2 hh1 hh2 hn1 hn2,
    parse_g2_eval Y y1 y2 y3 y4 d1 d2 m1 m2 h1 h2 n1 n2
      hy1 hy2 hy3 hy4 hd1 hd2 hm1 hm2 hh1 hh2 hn1 hn2, ?_,
    range_iso_eval Y y1 y2 y3 y4 d1 d2 m1 m2 h1 h2 n1 n2 e1 e2 e3 e4
      hy1 hy2 hy3 hy4 hd1 hd2 hm1 hm2 hh1 hh2 hn1 hn2 he1 he2 he3 he4,
    range_g2_eval Y y1 y2 y3 y4 d1 d2 m1 m2 h1 h2 n1 n2 e1 e2 e3 e4
      hy1 hy2 hy3 hy4 hd1 hd2 hm1 hm2 hh1 hh2 hn1 hn2 he1 he2 he3 he4, ?_⟩
  · rw [parse_g1_eval Y d1 d2 m1 m2 h1 h2 n1 n2 hd1 hd2 hm1 hm2 hh1 hh2 hn1 hn2,
      hpad]
    simp
  · rw [range_g1_eval Y d1 d2 m1 m2 h1 h2 n1 n2 e1 e2 e3 e4
      hd1 hd2 hm1 hm2 hh1 hh2 hn1 hn2 he1 he2 he3 he4, hpad]
    simp

/-- Witness for C6 at the concrete instant 2026-02-10 10:00 (end 11:00). -/
theorem C6_witness :
    parse_date_time 2026 (String.mk ['1', '0', '.', '0', '2', ' ',
        '1', '0', ':', '0', '0'])
      = some (String.mk ['2', '0', '2', '6', '-', '0', '2', '-', '1', '0'],
              String.mk ['1', '0', ':', '0', '0'])
    ∧ parse_date_range 2026 (String.mk ['2', '0', '2', '6', '-', '0', '2', '-',
        '1', '0', ' ', '1', '0', ':', '0', '0', ' ', '1', '1', ':', '0', '0'])
      = some (String.mk ['2', '0', '2', '6', '-', '0', '2', '-', '1', '0'],
              String.mk ['1', '0', ':', '0', '0'], String.mk ['1', '1', ':', '0', '0']) := by
  have h := C6_grammars_agree 2026 '2' '0' '2' '6' '1' '0' '0' '2'
    '1' '0' '0' '0' '1' '1' '0' '0'
    (by decide) (by decide) (by decide) (by decide) (by decide) (by decide)
    (by decide) (by decide) (by decide) (by decide) (by decide) (by decide)
    (by decide) (by decide) (by decide) (by decide) (by decide)
  exact ⟨h.2.2.1, h.2.2.2.1⟩

/-! ## C9: no calendar-range validation -/

/-- C9.  `parse_date_time` does no calendar validation: any DD.MM-shaped,
DD.MM.YYYY-shaped or ISO-shaped digit input yields a date string assembled
directly from those digits (month 99 and day 99 included), and
`handle_add_slot` persists such a key — concretely `"99.99 10:00 11:00"`
stores the key `"2026-99-99"`. -/
theorem C9_no_calendar_validation (Y : Nat)
    (y1 y2 y3 y4 d1 d2 m1 m2 h1 h2 n1 n2 : Char)
    (hy1 : isDig y1 = true) (hy2 : isDig y2 = true)
    (hy3 : isDig y3 = true) (hy4 : isDig y4 = true)
    (hd1 : isDig d1 = true) (hd2 : isDig d2 = true)
    (hm1 : isDig m1 = true) (hm2 : isDig m2 = true)
    (hh1 : isDig h1 = true) (hh2 : isDig h2 = true)
    (hn1 : isDig n1 = true) (hn2 : isDig n2 = true) :
    parse_date_time Y (String.mk [d1, d2, '.', m1, m2, ' ', h1, h2, ':', n1, n2]) =
      some (String.mk ((pad4 Y).data ++ ['-', m1, m2, '-', d1, d2]),
            String.mk [h1, h2, ':', n1, n2])
    ∧ parse_date_time Y
        (String.mk [d1, d2, '.', m1, m2, '.', y1, y2, y3, y4, ' ',
                    h1, h2, ':', n1, n2]) =
        some (String.mk [y1, y2, y3, y4, '-', m1, m2, '-', d1, d2],
              String.mk [h1, h2, ':', n1, n2])
    ∧ parse_date_time Y
        (String.mk [y1, y2, y3, y4, '-', m1, m2, '-', d1, d2, ' ',
                    h1, h2, ':', n1, n2]) =
        some (String.mk [y1, y2, y3, y4, '-', m1, m2, '-', d1, d2],
              String.mk [h1, h2, ':', n1, n2])
    ∧ parse_date_time 2026 "99.99 10:00" = some ("2026-99-99", "10:00")
    ∧ handle_add_slot 2026 [] "99.99 10:00 11:00" =
        ([("2026-99-99", ["10:00"])],
         .added "2026-99-99" (format_date_ru "2026-99-99") "10:00" "11:00") :=
  ⟨parse_g1_eval Y d1 d2 m1 m2 h1 h2 n1 n2 hd1 hd2 hm1 hm2 hh1 hh2 hn1 hn2,
   parse_g2_eval Y y1 y2 y3 y4 d1 d2 m1 m2 h1 h2 n1 n2
     hy1 hy2 hy3 hy4 hd1 hd2 hm1 hm2 hh1 hh2 hn1 hn2,
   parse_iso_eval Y y1 y2 y3 y4 d1 d2 m1 m2 h1 h2 n1 n2
     hy1 hy2 hy3 hy4 hd1 hd2 hm1 hm2 hh1 hh2 hn1 hn2,
   by decide, by decide⟩

/-- Witness for C9: month 99, day 99 parse to the invalid key. -/
theorem C9_witness :
    parse_date_time 2026 (String.mk ['9', '9', '.', '9', '9', ' ',
        '1', '0', ':', '0', '0'])
      = some (String.mk ((pad4 2026).data ++ ['-', '9', '9', '-', '9', '9']),
              String.mk ['1', '0', ':', '0', '0']) :=
  (C9_no_calendar_validation 2026 '2' '0' '2' '6' '9' '9' '9' '9' '1' '0' '0' '0'
    (by decide) (by decide) (by decide) (by decide) (by decide) (by decide)
    (by decide) (by decide) (by decide) (by decide) (by decide) (by decide)).1

/-! ## Sorting lemmas for the post listing -/

lemma stableInsert_perm {α : Type} (lt : α → α → Bool) (a : α) :
    ∀ l : List α, (stableInsert lt a l).Perm (a :: l) := by
  intro l
  induction l with
  | nil => simp [stableInsert]
  | cons b bs ih =>
    simp only [stableInsert]
    split_ifs with h
    · exact List.Perm.refl _
    · exact (ih.cons b).trans (List.Perm.swap a b bs)

lemma stableSort_perm_aux {α : Type} (lt : α → α → Bool) :
    ∀ l acc : List α,
      (l.foldl (fun acc x => stableInsert lt x acc) acc).Perm (acc ++ l) := by
  intro l
  induction l with
  | nil => intro acc; simp
  | cons x xs ih =>
    intro acc
    simp only [List.foldl_cons]
    refine (ih (stableInsert lt x acc)).trans ?_
    refine (((stableInsert_perm lt x acc).append_right xs).trans ?_)
    exact List.perm_middle.symm

lemma stableSort_perm {α : Type} (lt : α → α → Bool) (l : List α) :
    (stableSort lt l).Perm l := by
  simpa [stableSort] using stableSort_perm_aux lt l []

lemma stableInsert_pairwise {α : Type} (le lt : α → α → Bool)
    (hconn : ∀ a b, lt a b = false → le b a = true)
    (hltle : ∀ a b, lt a b = true → le a b = true)
    (htrans : ∀ a b c, le a b = true → le b c = true → le a c = true)
    (a : α) :
    ∀ l : List α, l.Pairwise (fun x y => le x y = true) →
      (stableInsert lt a l).Pairwise (fun x y => le x y = true) := by
  intro l
  induction l with
  | nil => intro _; simp [stableInsert]
  | cons b bs ih =>
    intro h
    rcases List.pairwise_cons.mp h with ⟨hb, hbs⟩
    simp only [stableInsert]
    split_ifs with hlt
    · refine List.pairwise_cons.mpr ⟨?_, h⟩
      intro x hx
      rcases List.mem_cons.mp hx with rfl | hx
      · exact hltle a x hlt
      · exact htrans a b x (hltle a b hlt) (hb x hx)
    · refine List.pairwise_cons.mpr ⟨?_, ih hbs⟩
      intro x hx
      have hmem := (stableInsert_perm lt a bs).mem_iff.mp hx
      rcases List.mem_cons.mp hmem with rfl | hx'
      · exact hconn x b (by simpa using hlt)
      · exact hb x hx'

lemma stableSort_pairwise_aux {α : Type} (le lt : α → α → Bool)
    (hconn : ∀ a b, lt a b = false → le b a = true)
    (hltle : ∀ a b, lt a b = true → le a b = true)
    (htrans : ∀ a b c, le a b = true → le b c = true → le a c = true) :
    ∀ l acc : List α, acc.Pairwise (fun x y => le x y = true) →
      (l.foldl (fun acc x => stableInsert lt x acc) acc).Pairwise
        (fun x y => le x y = true) := by
  intro l
  induction l with
  | nil => intro acc h; simpa using h
  | cons x xs ih =>
    intro acc h
    simp only [List.foldl_cons]
    exact ih (stableInsert lt x acc)
      (stableInsert_pairwise le lt hconn hltle htrans x acc h)

lemma listLt_asymm : ∀ x y : List Char,
    listLtChars x y = true → listLtChars y x = false := by
  intro x
  induction x with
  | nil =>
    intro y h
    cases y with
    | nil => simp [listLtChars] at h
    | cons b bs => simp [listLtChars]
  | cons a as ih =>
    intro y h
    cases y with
    | nil => simp [listLtChars] at h
    | cons b bs =>
      by_cases h1 : a.toNat < b.toNat
      · simp [listLtChars, h1, show ¬ b.toNat < a.toNat from by omega]
      · by_cases h2 : b.toNat < a.toNat
        · simp [listLtChars, h1, h2] at h
        · simp only [listLtChars, if_neg h1, if_neg h2] at h
          simp only [listLtChars, if_neg h2, if_neg h1]
          exact ih bs h

lemma listLt_cotrans : ∀ x y z : List Char,
    listLtChars x z = true → listLtChars x y = true ∨ listLtChars y z = true := by
  intro x
  induction x with
  | nil =>
    intro y z h
    cases z with
    | nil => simp [listLtChars] at h
    | cons c cs =>
      cases y with
      | nil => exact Or.inr (by simp [listLtChars])
      | cons b bs => exact Or.inl (by simp [listLtChars])
  | cons a as ih =>
    intro y z h
    cases z with
    | nil => simp [listLtChars] at h
    | cons c cs =>
      cases y with
      | nil => exact Or.inr (by simp [listLtChars])
      | cons b bs =>
        by_cases hac : a.toNat < c.toNat
        · by_cases hab : a.toNat < b.toNat
          · exact Or.inl (by simp [listLtChars, hab])
          · refine Or.inr ?_
            have hbc : b.toNat < c.toNat := by omega
            simp [listLtChars, hbc]
        · by_cases hca : c.toNat < a.toNat
          · simp [listLtChars, hac, hca] at h
          · simp only [listLtChars, if_neg hac, if_neg hca] at h
            by_cases hab : a.toNat < b.toNat
            · exact Or.inl (by simp [listLtChars, hab])
            · by_cases hba : b.toNat < a.toNat
              · refine Or.inr ?_
                have hbc : b.toNat < c.toNat := by omega
                simp [listLtChars, hbc]
              · rcases ih bs cs h with h' | h'
                · exact Or.inl (by simp [listLtChars, if_neg hab, if_neg hba, h'])
                · refine Or.inr ?_
                  have g1 : ¬ b.toNat < c.toNat := by omega
                  have g2 : ¬ c.toNat < b.toNat := by omega
                  simp [listLtChars, if_neg g1, if_neg g2, h']

lemma keyLt_false_le (a b : Int × String) :
    keyLt a b = false → keyLe b a = true := by
  intro h
  simp only [keyLt, Bool.or_eq_false_iff, Bool.and_eq_false_iff,
    decide_eq_false_iff_not] at h
  simp only [keyLe, Bool.or_eq_true, Bool.and_eq_true, decide_eq_true_eq, strLe]
  rcases h with ⟨h1, h2⟩
  by_cases he : a.1 = b.1
  · refine Or.inr ⟨he.symm, ?_⟩
    rcases h2 with h2 | h2
    · exact absurd he h2
    · simp [h2]
  · exact Or.inl (by omega)

lemma keyLt_le (a b : Int × String) : keyLt a b = true → keyLe a b = true := by
  intro h
  simp only [keyLt, Bool.or_eq_true, Bool.and_eq_true, decide_eq_true_eq] at h
  simp only [keyLe, Bool.or_eq_true, Bool.and_eq_true, decide_eq_true_eq, strLe]
  rcases h with h | ⟨h1, h2⟩
  · exact Or.inl h
  · refine Or.inr ⟨h1, ?_⟩
    simp [strLt, listLt_asymm _ _ h2]

lemma keyLe_trans (a b c : Int × String) :
    keyLe a b = true → keyLe b c = true → keyLe a c = true := by
  simp only [keyLe, Bool.or_eq_true, Bool.and_eq_true, decide_eq_true_eq, strLe,
    Bool.not_eq_true']
  rintro (h | ⟨h1, h2⟩) (g | ⟨g1, g2⟩)
  · exact Or.inl (by omega)
  · exact Or.inl (by omega)
  · exact Or.inl (by omega)
  · refine Or.inr ⟨h1.trans g1, ?_⟩
    cases hb : strLt c.2 a.2 with
    | false => rfl
    | true =>
      rcases listLt_cotrans c.2.data b.2.data a.2.data hb with h' | h'
      · rw [show strLt c.2 b.2 = listLtChars c.2.data b.2.data from rfl, h'] at g2
        cases g2
      · rw [show strLt b.2 a.2 = listLtChars b.2.data a.2.data from rfl, h'] at h2
        cases h2

/-! ## C8: the post listing's sort order -/

/-- C8, counterexample.  File `"a"` has no frontmatter (no parseable date);
file `"b"` is dated `0001-01-01`, a parseable date whose timestamp equals the
`datetime.min` sentinel assigned to undated posts.  The listing therefore
tie-breaks them by slug and returns the undated post **before** the dated
one, contradicting "posts lacking a parseable date sorted after all dated
posts". -/
theorem C8_counterexample :
    list_blog_posts [("a", ["body only"]), ("b", ["---", "date: 0001-01-01", "---"])]
      = [("a", "a"), ("b", "b")]
    ∧ (extractPost "a" ["body only"]).2.2 = none
    ∧ (extractPost "b" ["---", "date: 0001-01-01", "---"]).2.2 = some "0001-01-01"
    ∧ pyFromIso "0001-01-01" = some pyDateTimeMin
    ∧ list_blog_posts
        [("a", ["body only"]), ("b", ["---", "date: 0001-01-01", "---"])]
      ≠ [("b", "b"), ("a", "a")] := by
  decide

/-- C8 as amended.  The listing returns the `(slug, title)` projection of the
extracted `(slug, title, date)` triples, sorted (as a permutation of them)
by the key `(-timestamp(date), slug)` ascending — i.e. by date descending
with ties broken by slug ascending — where a missing or unparseable date is
assigned `datetime.min` (0001-01-01T00:00), so an undated post sorts after
every dated post except one dated exactly the minimum, with which it ties
and falls back to the slug order. -/
theorem C8_post_listing_sorted (files : List (String × List String)) :
    list_blog_posts files = (listBlogPostsTriples files).map (fun x => (x.1, x.2.1))
    ∧ (listBlogPostsTriples files).Pairwise
        (fun a b => keyLe (postKey a) (postKey b) = true)
    ∧ (listBlogPostsTriples files).Perm
        (files.map (fun f => extractPost f.1 f.2)) := by
  refine ⟨rfl, ?_, stableSort_perm _ _⟩
  have h := stableSort_pairwise_aux
    (fun a b => keyLe (postKey a) (postKey b))
    (fun a b => keyLt (postKey a) (postKey b))
    (fun a b => keyLt_false_le (postKey a) (postKey b))
    (fun a b => keyLt_le (postKey a) (postKey b))
    (fun a b c => keyLe_trans (postKey a) (postKey b) (postKey c))
    (files.map (fun f => extractPost f.1 f.2)) [] List.Pairwise.nil
  exact h

end SisterSite
